import Mathlib

/-!
Verification of the `leanblueprint` plasTeX plugin
(`src/leanblueprint/Packages/blueprint.py`) via a shallow embedding.

Nodes of the dependency graph are identified by natural numbers; the heap of
per-node `userdata` dictionaries is modelled as a total map `Store : Nat → Node`.
A flag absent from the Python dictionary is falsy, so boolean flags are
modelled as `Bool` fields defaulting to `false`; the `uses` key is modelled as
`Option (List Nat)` because the propagation pass writes it back only when the
key was authored, and `proved_by` as `Option Nat`.
-/

namespace Blueprint

/-- A graph node's `userdata` dictionary together with its kind as reported by
the external classifier `item_kind`. Authored fields come first, then the
derived fields written by `make_lean_data` (default-false when not yet set,
matching `userdata.get(key, False)`). -/
structure Node where
  kind : String := ""
  leanok : Bool := false
  mathlibok : Bool := false
  notready : Bool := false
  leandecls : List String := []
  uses : Option (List Nat) := none
  proved_by : Option Nat := none
  issue : Option String := none
  can_state : Bool := false
  can_prove : Bool := false
  proved : Bool := false
  fully_proved : Bool := false
  lean_urls : List (String × String) := []
  deriving Repr, DecidableEq

/-- The heap of node objects: node id to node data. -/
def Store : Type := Nat → Node

/-- Write the node data for one id, leaving the rest of the heap unchanged. -/
def update (s : Store) (i : Nat) (n : Node) : Store :=
  fun j => if j = i then n else s j

/-- Reading the `uses` key with a default empty list:
`node.userdata.get('uses', [])`. -/
def getUses (n : Node) : List Nat :=
  n.uses.getD []

/-! ## Markup commands

The `digest` methods of the `leanok`, `notready`, `mathlibok`, `lean` and
`discussion` command classes, each of which writes flags on its parent node. -/

/-- One authored markup command applied to a node (the `digest` methods of the
corresponding `Command` subclasses). -/
inductive MarkupCmd where
  | leanokCmd : MarkupCmd
  | notreadyCmd : MarkupCmd
  | mathlibokCmd : MarkupCmd
  | leanCmd (decls : List String) : MarkupCmd
  | discussionCmd (issue : String) : MarkupCmd
  deriving Repr, DecidableEq

/-- Effect of one markup command on its parent node's userdata. -/
def applyCmd (n : Node) (c : MarkupCmd) : Node :=
  match c with
  | .leanokCmd => { n with leanok := true }
  | .notreadyCmd => { n with notready := true }
  | .mathlibokCmd => { n with leanok := true, mathlibok := true }
  | .leanCmd decls => { n with leandecls := decls.map String.trim }
  | .discussionCmd iss =>
      { n with issue := some ((iss.dropWhile (· = '#')).trim) }

/-! ## Color classifiers -/

/-- The color table installed in `document.userdata['dep_graph']['colors']`;
each entry is a pair (color, human description). -/
structure Colors where
  mathlib : String × String
  stated : String × String
  can_state : String × String
  not_ready : String × String
  proved : String × String
  can_prove : String × String
  defined : String × String
  fully_proved : String × String
  deriving Repr, DecidableEq

/-- The default color table set up by `ProcessOptions`. -/
def defaultColors : Colors where
  mathlib := ("darkgreen", "Dark green")
  stated := ("green", "Green")
  can_state := ("blue", "Blue")
  not_ready := ("#FFAA33", "Orange")
  proved := ("#9CEC8B", "Green")
  can_prove := ("#A3D6FF", "Blue")
  defined := ("#B0ECA3", "Light green")
  fully_proved := ("#1CAC78", "Dark green")

/-- The border colorizer callback: first match among
mathlibok, leanok, can_state, notready, else the empty string. -/
def colorizer (colors : Colors) (n : Node) : String :=
  if n.mathlibok then colors.mathlib.1
  else if n.leanok then colors.stated.1
  else if n.can_state then colors.can_state.1
  else if n.notready then colors.not_ready.1
  else ""

/-- The fill colorizer callback. The first `if/elif` chain picks a provisional
fill from `proved` and `can_prove`; the second chain overrides it for
definition-kind nodes, with `fully_proved` only consulted on the `else` branch
of the definition test. -/
def fillcolorizer (colors : Colors) (n : Node) : String :=
  let stated := n.leanok
  let fc0 : String :=
    if n.proved then colors.proved.1
    else if n.can_prove && (n.can_state || stated) then colors.can_prove.1
    else ""
  if n.kind == "definition" then
    if stated then colors.defined.1
    else if n.can_state then colors.can_prove.1
    else fc0
  else if n.fully_proved then colors.fully_proved.1
  else fc0

/-! ## The dependency graph and the status-propagation pass

`make_lean_data` iterates twice over `graph.nodes` (a Python set) for each
graph. The iteration sequence of the set is modelled as the list `order`;
`ancestors` is the external transitive-prerequisite computation of the
depgraph plugin; `edges` and `proof_edges` are the graph's edge sets as
encountered by the serializer. -/

structure Graph where
  order : List Nat
  edges : List (Nat × Nat)
  proof_edges : List (Nat × Nat)
  ancestors : Nat → List Nat

/-- The node value written by the body of the first `for node in nodes` loop
of `make_lean_data` for node `i`, reading the current heap `s`: build
`lean_urls`, compute `can_state`, and when a proof node exists extend the
(shared, mutable) `uses` list with the proof node's `uses` before computing
`can_prove` and `proved`. The extension is written back only when the node
has an authored `uses` key, because `used = node.userdata.get('uses', [])`
otherwise aliases a fresh list that is discarded. -/
def pass1Node (dochome : String) (s : Store) (i : Nat) : Node :=
  let n := s i
  let urls := n.leandecls.map
    (fun d => (d, dochome ++ "/find/#doc/" ++ d))
  let used := getUses n
  let canState := (used.all fun u => (s u).leanok) && !n.notready
  match n.proved_by with
  | some p =>
      let used2 := used ++ getUses (s p)
      { n with
        lean_urls := urls
        uses := n.uses.map (fun _ => used2)
        can_state := canState
        can_prove := used2.all fun u => (s u).leanok
        proved := (s p).leanok }
  | none =>
      { n with
        lean_urls := urls
        can_state := canState
        can_prove := false
        proved := false }

/-- One iteration of the first loop: write node `i`'s new value to the heap. -/
def pass1Step (dochome : String) (s : Store) (i : Nat) : Store :=
  update s i (pass1Node dochome s i)

/-- The first loop of `make_lean_data` over the whole node set. -/
def pass1 (dochome : String) (s : Store) (order : List Nat) : Store :=
  order.foldl (pass1Step dochome) s

/-- The node value written by the second `for node in nodes` loop of
`make_lean_data`: `fully_proved` over `graph.ancestors(node).union({node})`,
reading the current heap. -/
def pass2Node (g : Graph) (s : Store) (i : Nat) : Node :=
  { s i with
    fully_proved := (g.ancestors i ++ [i]).all fun m =>
      (s m).proved || ((s m).kind == "definition") }

/-- One iteration of the second loop. -/
def pass2Step (g : Graph) (s : Store) (i : Nat) : Store :=
  update s i (pass2Node g s i)

/-- The second loop of `make_lean_data`. -/
def pass2 (g : Graph) (s : Store) (order : List Nat) : Store :=
  order.foldl (pass2Step g) s

/-- The status-propagation callback `make_lean_data` for one graph: the first
loop computes `lean_urls`, `can_state`, `can_prove` and `proved` for every
node, then the second loop computes `fully_proved`. (The write of the
`lean_decls` text file is an effect outside the heap and is not modelled.) -/
def make_lean_data (dochome : String) (g : Graph) (s : Store) : Store :=
  pass2 g (pass1 dochome s g.order) g.order

/-! ## Serialization (`serialize_node`, `serialize_graph`, `export_to_json`) -/

/-- The result of `serialize_node`: id, kind, `caption` when the node has one,
otherwise a `title` derived from the id, plus the node's userdata. With
numeric node ids the Python `node.id.split(':')[-1]` is the id itself; the
per-key best-effort stringification of the dynamically typed `userdata` dict
is carried as the typed record. -/
structure SerializedNode where
  id : Nat
  kind : String
  caption : Option String
  title : Option String
  userdata : Node
  deriving Repr, DecidableEq

/-- `serialize_node` on the node with id `i` (`caption` is an attribute of the
plasTeX node object, supplied here by the oracle `captionOf`). -/
def serialize_node (captionOf : Nat → Option String) (s : Store)
    (i : Nat) : SerializedNode :=
  match captionOf i with
  | some c => { id := i, kind := (s i).kind, caption := some c,
                title := none, userdata := s i }
  | none => { id := i, kind := (s i).kind, caption := none,
              title := some (toString i), userdata := s i }

/-- The result of `serialize_graph`. -/
structure SerializedGraph where
  nodes : List SerializedNode
  edges : List (Nat × Nat)
  proof_edges : List (Nat × Nat)
  node_count : Nat
  edge_count : Nat
  proof_edge_count : Nat
  deriving Repr, DecidableEq

/-- `serialize_graph`: serialize every node, map every edge and proof edge to
its id pair, and record the three lengths. -/
def serialize_graph (captionOf : Nat → Option String) (s : Store)
    (g : Graph) : SerializedGraph :=
  let nodes := g.order.map (serialize_node captionOf s)
  let edges := g.edges.map (fun e => (e.1, e.2))
  let proof_edges := g.proof_edges.map (fun e => (e.1, e.2))
  { nodes := nodes
    edges := edges
    proof_edges := proof_edges
    node_count := nodes.length
    edge_count := edges.length
    proof_edge_count := proof_edges.length }

/-- A serialized color entry of `export_to_json`. -/
structure ColorEntry where
  color : String
  description : String
  deriving Repr, DecidableEq

/-- A serialized legend entry of `export_to_json`. -/
structure LegendEntry where
  label : String
  description : String
  deriving Repr, DecidableEq

/-- The `dep_graph` entry of `document.userdata`: colors, legend and the
per-section graphs (each entry of `colors` and `legend` is the pair the
plugin itself stores there, so the pair branch of the serializer applies). -/
structure DepGraphIn where
  colors : List (String × (String × String))
  legend : List (String × String)
  graphs : List (String × Graph)

/-- The document state read by `export_to_json`: the three project URLs, the
accumulated `lean_decls`, the optional `dep_graph` entry, the node heap and
the caption oracle. -/
structure Doc where
  project_home : Option String
  project_github : Option String
  project_dochome : Option String
  lean_decls : List String
  dep_graph : Option DepGraphIn
  store : Store
  captionOf : Nat → Option String

/-- The `project_metadata` sub-structure of the export. -/
structure ProjectMetadata where
  project_home : Option String
  project_github : Option String
  project_dochome : Option String
  deriving Repr, DecidableEq

/-- The serialized `dep_graph` sub-structure of the export. -/
structure DepGraphOut where
  colors : List (String × ColorEntry)
  legend : List LegendEntry
  graphs : List (String × SerializedGraph)

/-- The whole export structure; the optional `dep_graph` field models the
`dep_graph` key being present or absent in the top-level JSON object. -/
structure ExportData where
  project_metadata : ProjectMetadata
  lean_decls : List String
  dep_graph : Option DepGraphOut

/-- The `data` dictionary built by `export_to_json` before writing: always
`project_metadata` and `lean_decls`; the `dep_graph` key is added only when
`document.userdata` has one, holding the serialized colors, legend and
graphs. -/
def build_export_data (doc : Doc) : ExportData :=
  { project_metadata :=
      { project_home := doc.project_home
        project_github := doc.project_github
        project_dochome := doc.project_dochome }
    lean_decls := doc.lean_decls
    dep_graph := doc.dep_graph.map fun dg =>
      { colors := dg.colors.map fun kv =>
          (kv.1, { color := kv.2.1, description := kv.2.2 })
        legend := dg.legend.map fun it =>
          { label := it.1, description := it.2 }
        graphs := dg.graphs.map fun ng =>
          (ng.1, serialize_graph doc.captionOf doc.store ng.2) } }

/-- The top-level keys of the JSON object written by `export_to_json`, in
insertion order. -/
def export_keys (d : ExportData) : List String :=
  ["project_metadata", "lean_decls"] ++
    (match d.dep_graph with
     | none => []
     | some _ => ["dep_graph"])

/-! ## Subgraph extraction (the monkey-patched `DepGraph.subgraph`)

For the subgraph extractor the set view of the external `DepGraph` object is
what matters: `nodes`, `edges` and `proof_edges` are Python sets and
`ancestors` returns a set. -/

structure DepGraph where
  nodes : Finset Nat
  edges : Finset (Nat × Nat)
  proof_edges : Finset (Nat × Nat)
  ancestors : Nat → Finset Nat

/-- The monkey-patched `DepGraph.subgraph`: `None` when the node is absent,
otherwise a fresh graph on `ancestors(node) ∪ {node}` whose edge and
proof-edge sets keep exactly the pairs with both endpoints inside. -/
def DepGraph.subgraph (g : DepGraph) (node : Nat) : Option DepGraph :=
  if node ∈ g.nodes then
    let subgraph_nodes := g.ancestors node ∪ {node}
    some
      { nodes := subgraph_nodes
        edges := g.edges.filter
          (fun e => e.1 ∈ subgraph_nodes ∧ e.2 ∈ subgraph_nodes)
        proof_edges := g.proof_edges.filter
          (fun e => e.1 ∈ subgraph_nodes ∧ e.2 ∈ subgraph_nodes)
        ancestors := g.ancestors }
  else none

/-- The per-node decision of `make_subgraph_html`: an HTML file is generated
for a node exactly when `graph.subgraph(node)` is non-empty and has more than
one node (`if sub and len(sub.nodes) > 1`). -/
def generates_subgraph_html (g : DepGraph) (node : Nat) : Bool :=
  match g.subgraph node with
  | none => false
  | some sub => decide (1 < sub.nodes.card)

/-! ## Error handling of the export and subgraph callbacks

File and template I/O is modelled by outcome oracles; a Python exception is
an `Except.error`. `export_to_json` logs a warning and then re-raises on a
write failure; the registered callbacks (`export_json_callback` and
`make_subgraph_html`) wrap their bodies in `try/except Exception`, so they
always return normally. -/

inductive IOOutcome where
  | ok : IOOutcome
  | err (msg : String) : IOOutcome
  deriving Repr, DecidableEq

/-- `export_to_json`: build the export structure, attempt the file write, and
on failure log a warning and re-raise (so this function itself may throw). -/
def export_to_json (doc : Doc) (write : ExportData → IOOutcome) :
    Except String ExportData :=
  let data := build_export_data doc
  match write data with
  | .ok => .ok data
  | .err e => .error ("Error exporting blueprint data to JSON: " ++ e)

/-- The outcome of a registered callback: whether the artifact was produced
and the warning logged, if any. -/
structure CbOutcome where
  produced : Bool
  warning : Option String
  deriving Repr, DecidableEq

/-- The registered post-parse callback `export_json_callback`: a catch-all
`try/except` around `export_to_json` that downgrades any exception to a
logged warning. `Except.ok` means the callback returned normally to the host
build. -/
def export_json_callback (doc : Doc) (write : ExportData → IOOutcome) :
    Except String CbOutcome :=
  match export_to_json doc write with
  | .ok _ => .ok { produced := true, warning := none }
  | .error e =>
      .ok { produced := false
            warning := some
              ("Failed to export blueprint data to JSON: " ++ e) }

/-- The environment of `make_subgraph_html`: the per-section graphs (empty
when absent), whether the document has a `dep_graph` entry, whether the
depgraph template file exists, and the outcome of rendering and writing the
HTML file for a given node. -/
structure SubgraphEnv where
  hasDepGraph : Bool
  graphs : List (String × DepGraph)
  templateExists : Bool
  render : Nat → IOOutcome

/-- The sanitized per-node output filename (with numeric node ids the
`':'`/`'/'` replacement is the identity). -/
def subgraph_filename (i : Nat) : String :=
  "subgraph_" ++ toString i ++ ".html"

/-- The inner loop of `make_subgraph_html` over one graph's node list:
generate a file for each node whose subgraph has more than one node;
a rendering failure raises. -/
def gen_subgraph_files (env : SubgraphEnv) (g : DepGraph) :
    List Nat → Except String (List String)
  | [] => .ok []
  | i :: rest =>
    if generates_subgraph_html g i then
      match env.render i with
      | .ok =>
        match gen_subgraph_files env g rest with
        | .ok fs => .ok (subgraph_filename i :: fs)
        | .error e => .error e
      | .err e => .error e
    else gen_subgraph_files env g rest

/-- The loop of `make_subgraph_html` over all graphs (`nodes_of` lists a
graph's node set in iteration order). -/
def gen_all_subgraph_files (env : SubgraphEnv)
    (nodes_of : DepGraph → List Nat) :
    List (String × DepGraph) → Except String (List String)
  | [] => .ok []
  | (_, g) :: rest =>
    match gen_subgraph_files env g (nodes_of g) with
    | .ok fs =>
      match gen_all_subgraph_files env nodes_of rest with
      | .ok fs2 => .ok (fs ++ fs2)
      | .error e => .error e
    | .error e => .error e

/-- The body of `make_subgraph_html` inside the `try`: early returns for a
missing `dep_graph` entry, no graphs, or a missing template; otherwise the
generation loop, whose I/O failures raise. -/
def make_subgraph_html_body (env : SubgraphEnv)
    (nodes_of : DepGraph → List Nat) : Except String (List String) :=
  if !env.hasDepGraph then .ok []
  else if env.graphs.isEmpty then .ok []
  else if !env.templateExists then .ok []
  else gen_all_subgraph_files env nodes_of env.graphs

/-- The registered pre-cleanup callback `make_subgraph_html`: the body wrapped
in a catch-all `try/except` that logs a warning and returns an empty file
list. `Except.ok` means the callback returned normally to the host build. -/
def make_subgraph_html_cb (env : SubgraphEnv)
    (nodes_of : DepGraph → List Nat) :
    Except String (List String × Option String) :=
  match make_subgraph_html_body env nodes_of with
  | .ok fs => .ok (fs, none)
  | .error e => .ok ([], some ("Error generating subgraphs: " ++ e))

/-! ## Example instances used to exercise the theorems on concrete inputs -/

/-- Erase the fields written by the first loop (and `fully_proved`, which
neither loop's first pass writes): what remains is exactly the authored part
of a node. -/
def eraseDerived (n : Node) : Node :=
  { n with
    lean_urls := []
    uses := none
    can_state := false
    can_prove := false
    proved := false
    fully_proved := false }

/-- Erase the single field written by the second loop. -/
def eraseFP (n : Node) : Node :=
  { n with fully_proved := false }

/-- Heap with theorem node 0 (uses node 1, proved by proof node 2, which has
an empty `uses` list), lemma node 1 already formalized, and proof node 2
formalized. -/
def egStore1 : Store := fun i =>
  match i with
  | 0 => { uses := some [1], proved_by := some 2 }
  | 1 => { leanok := true }
  | 2 => { uses := some [], leanok := true }
  | _ => {}

/-- The graph of `egStore1`. -/
def egGraph1 : Graph where
  order := [0, 1, 2]
  edges := [(0, 1)]
  proof_edges := [(0, 2)]
  ancestors := fun i => match i with | 0 => [1] | _ => []

/-- Heap where node 0 has an authored `uses` list `[1]` and a proof node 2
whose own `uses` list is `[3]`: running the pass extends node 0's `uses`
in place. -/
def egStore3 : Store := fun i =>
  match i with
  | 0 => { uses := some [1], proved_by := some 2 }
  | 2 => { uses := some [3], leanok := true }
  | _ => {}

/-- The graph of `egStore3`. -/
def egGraph3 : Graph where
  order := [0, 1, 2]
  edges := [(0, 1)]
  proof_edges := [(0, 2)]
  ancestors := fun i => match i with | 0 => [1] | _ => []

/-- Heap with a single definition-kind node with no proof node: it ends up
`fully_proved` but not `proved`. -/
def egStore4 : Store := fun i =>
  match i with
  | 0 => { kind := "definition" }
  | _ => {}

/-- The one-node graph of `egStore4`. -/
def egGraph4 : Graph where
  order := [0]
  edges := []
  proof_edges := []
  ancestors := fun _ => []

/-- A set-view dependency graph with an isolated leaf node 5. -/
def egDG : DepGraph where
  nodes := {0, 1, 5}
  edges := {(0, 1)}
  proof_edges := ∅
  ancestors := fun i => match i with | 0 => {1} | _ => ∅

/-- A document with no dependency graph entry. -/
def egDoc : Doc where
  project_home := none
  project_github := none
  project_dochome := none
  lean_decls := []
  dep_graph := none
  store := fun _ => {}
  captionOf := fun _ => none

/-- A node carrying only the `notready` flag. -/
def egNodeNotready : Node := { notready := true }

/-! ## Heap lemmas -/

theorem update_self (s : Store) (i : Nat) (n : Node) : update s i n i = n := by
  simp [update]

theorem update_ne (s : Store) (i : Nat) (n : Node) {j : Nat} (h : j ≠ i) :
    update s i n j = s j := by
  simp [update, h]

theorem pass1Step_ne (d : String) (s : Store) (i : Nat) {j : Nat}
    (h : j ≠ i) : pass1Step d s i j = s j :=
  update_ne s i _ h

theorem pass1Step_self (d : String) (s : Store) (i : Nat) :
    pass1Step d s i i = pass1Node d s i :=
  update_self s i _

theorem pass2Step_ne (g : Graph) (s : Store) (i : Nat) {j : Nat}
    (h : j ≠ i) : pass2Step g s i j = s j :=
  update_ne s i _ h

theorem pass2Step_self (g : Graph) (s : Store) (i : Nat) :
    pass2Step g s i i = pass2Node g s i :=
  update_self s i _

/-- A node not visited by the first loop keeps its heap entry. -/
theorem pass1_not_mem (d : String) {l : List Nat} (s : Store) {i : Nat}
    (h : i ∉ l) : pass1 d s l i = s i := by
  induction l generalizing s with
  | nil => rfl
  | cons a t ih =>
      have hia : i ≠ a := fun hh => h (hh ▸ List.mem_cons_self a t)
      have ht : i ∉ t := fun hh => h (List.mem_cons_of_mem a hh)
      calc pass1 d s (a :: t) i = pass1 d (pass1Step d s a) t i := rfl
        _ = pass1Step d s a i := ih (pass1Step d s a) ht
        _ = s i := pass1Step_ne d s a hia

/-- A node not visited by the second loop keeps its heap entry. -/
theorem pass2_not_mem (g : Graph) {l : List Nat} (s : Store) {i : Nat}
    (h : i ∉ l) : pass2 g s l i = s i := by
  induction l generalizing s with
  | nil => rfl
  | cons a t ih =>
      have hia : i ≠ a := fun hh => h (hh ▸ List.mem_cons_self a t)
      have ht : i ∉ t := fun hh => h (List.mem_cons_of_mem a hh)
      calc pass2 g s (a :: t) i = pass2 g (pass2Step g s a) t i := rfl
        _ = pass2Step g s a i := ih (pass2Step g s a) ht
        _ = s i := pass2Step_ne g s a hia

/-- One iteration of the first loop changes no authored field. -/
theorem pass1Step_eraseDerived (d : String) (s : Store) (i j : Nat) :
    eraseDerived (pass1Step d s i j) = eraseDerived (s j) := by
  by_cases hij : j = i
  · subst hij
    rw [pass1Step_self]
    unfold pass1Node eraseDerived
    cases hp : (s j).proved_by <;> simp [hp]
  · rw [pass1Step_ne d s i hij]

/-- The whole first loop changes no authored field. -/
theorem pass1_eraseDerived (d : String) (l : List Nat) (s : Store) (j : Nat) :
    eraseDerived (pass1 d s l j) = eraseDerived (s j) := by
  induction l generalizing s with
  | nil => rfl
  | cons a t ih =>
      calc eraseDerived (pass1 d (pass1Step d s a) t j)
          = eraseDerived (pass1Step d s a j) := ih (pass1Step d s a)
        _ = eraseDerived (s j) := pass1Step_eraseDerived d s a j

/-- One iteration of the second loop changes nothing but `fully_proved`. -/
theorem pass2Step_eraseFP (g : Graph) (s : Store) (i j : Nat) :
    eraseFP (pass2Step g s i j) = eraseFP (s j) := by
  by_cases hij : j = i
  · subst hij
    rw [pass2Step_self]
    unfold pass2Node eraseFP
    simp
  · rw [pass2Step_ne g s i hij]

/-- The whole second loop changes nothing but `fully_proved`. -/
theorem pass2_eraseFP (g : Graph) (l : List Nat) (s : Store) (j : Nat) :
    eraseFP (pass2 g s l j) = eraseFP (s j) := by
  induction l generalizing s with
  | nil => rfl
  | cons a t ih =>
      calc eraseFP (pass2 g (pass2Step g s a) t j)
          = eraseFP (pass2Step g s a j) := ih (pass2Step g s a)
        _ = eraseFP (s j) := pass2Step_eraseFP g s a j

theorem pass1_leanok (d : String) (l : List Nat) (s : Store) (j : Nat) :
    (pass1 d s l j).leanok = (s j).leanok :=
  by have h := congrArg Node.leanok (pass1_eraseDerived d l s j)
     simpa [eraseDerived, eraseFP] using h

theorem pass1_proved_by (d : String) (l : List Nat) (s : Store) (j : Nat) :
    (pass1 d s l j).proved_by = (s j).proved_by :=
  by have h := congrArg Node.proved_by (pass1_eraseDerived d l s j)
     simpa [eraseDerived, eraseFP] using h

theorem pass2_proved (g : Graph) (l : List Nat) (s : Store) (j : Nat) :
    (pass2 g s l j).proved = (s j).proved :=
  by have h := congrArg Node.proved (pass2_eraseFP g l s j)
     simpa [eraseDerived, eraseFP] using h

theorem pass2_kind (g : Graph) (l : List Nat) (s : Store) (j : Nat) :
    (pass2 g s l j).kind = (s j).kind :=
  by have h := congrArg Node.kind (pass2_eraseFP g l s j)
     simpa [eraseDerived, eraseFP] using h

theorem pass2_can_state (g : Graph) (l : List Nat) (s : Store) (j : Nat) :
    (pass2 g s l j).can_state = (s j).can_state :=
  by have h := congrArg Node.can_state (pass2_eraseFP g l s j)
     simpa [eraseDerived, eraseFP] using h

theorem pass2_can_prove (g : Graph) (l : List Nat) (s : Store) (j : Nat) :
    (pass2 g s l j).can_prove = (s j).can_prove :=
  by have h := congrArg Node.can_prove (pass2_eraseFP g l s j)
     simpa [eraseDerived, eraseFP] using h

theorem pass2_uses (g : Graph) (l : List Nat) (s : Store) (j : Nat) :
    (pass2 g s l j).uses = (s j).uses :=
  by have h := congrArg Node.uses (pass2_eraseFP g l s j)
     simpa [eraseDerived, eraseFP] using h

/-- The first loop never touches the `uses` entry of a node that has no proof
node (in particular of any proof node itself, in a well-formed document). -/
theorem pass1_uses_of_no_proof (d : String) (l : List Nat) (s : Store)
    (j : Nat) (h : (s j).proved_by = none) :
    (pass1 d s l j).uses = (s j).uses := by
  induction l generalizing s with
  | nil => rfl
  | cons a t ih =>
      have hstep : (pass1Step d s a j).uses = (s j).uses := by
        by_cases hij : j = a
        · subst hij
          rw [pass1Step_self]
          unfold pass1Node
          simp [h]
        · rw [pass1Step_ne d s a hij]
      have hpb : ((pass1Step d s a) j).proved_by = (s j).proved_by := by
        by_cases hij : j = a
        · subst hij
          rw [pass1Step_self]
          unfold pass1Node
          cases hp : (s j).proved_by <;> simp [hp]
        · rw [pass1Step_ne d s a hij]
      calc (pass1 d (pass1Step d s a) t j).uses
          = ((pass1Step d s a) j).uses := ih (pass1Step d s a) (hpb.trans h)
        _ = (s j).uses := hstep

/-- Split a nodup iteration sequence around a visited node. -/
theorem nodup_split {l1 l2 : List Nat} {i : Nat}
    (h : (l1 ++ i :: l2).Nodup) : i ∉ l1 ∧ i ∉ l2 := by
  rw [List.nodup_append] at h
  obtain ⟨-, h2, h3⟩ := h
  rw [List.nodup_cons] at h2
  exact ⟨fun hm => h3 hm (List.mem_cons_self i l2), h2.1⟩

/-- The value of a node after the whole first loop is the value written the
one time the loop visits it. -/
theorem pass1_split (d : String) (s : Store) (l1 : List Nat) (i : Nat)
    (l2 : List Nat) (h2 : i ∉ l2) :
    pass1 d s (l1 ++ i :: l2) i = pass1Node d (pass1 d s l1) i := by
  have h : pass1 d s (l1 ++ i :: l2)
      = pass1 d (pass1Step d (pass1 d s l1) i) l2 := by
    unfold pass1
    rw [List.foldl_append, List.foldl_cons]
  rw [h, pass1_not_mem d _ h2, pass1Step_self]

/-- Same for the second loop. -/
theorem pass2_split (g : Graph) (s : Store) (l1 : List Nat) (i : Nat)
    (l2 : List Nat) (h2 : i ∉ l2) :
    pass2 g s (l1 ++ i :: l2) i = pass2Node g (pass2 g s l1) i := by
  have h : pass2 g s (l1 ++ i :: l2)
      = pass2 g (pass2Step g (pass2 g s l1) i) l2 := by
    unfold pass2
    rw [List.foldl_append, List.foldl_cons]
  rw [h, pass2_not_mem g _ h2, pass2Step_self]

/-- The per-node value of the first loop depends only on the node's own entry,
the `leanok` flags, and the proof node's `uses` list. -/
theorem pass1Node_congr (d : String) (s1 s : Store) (i : Nat)
    (hsi : s1 i = s i)
    (hlk : ∀ u, (s1 u).leanok = (s u).leanok)
    (hpu : ∀ p, (s i).proved_by = some p → (s1 p).uses = (s p).uses) :
    pass1Node d s1 i = pass1Node d s i := by
  have hf : (fun u => (s1 u).leanok) = fun u => (s u).leanok := funext hlk
  unfold pass1Node
  rw [hsi, hf]
  cases hp : (s i).proved_by with
  | none => simp [hp]
  | some p => simp [hp, getUses, hpu p hp, hlk p]

/-- The per-node value of the second loop depends only on the node's own
entry and the `proved`/`kind` data of the heap. -/
theorem pass2Node_congr (g : Graph) (s1 s : Store) (i : Nat)
    (hsi : s1 i = s i)
    (hpk : ∀ m, (s1 m).proved = (s m).proved ∧ (s1 m).kind = (s m).kind) :
    pass2Node g s1 i = pass2Node g s i := by
  have hf : (fun m => (s1 m).proved || ((s1 m).kind == "definition"))
      = fun m => (s m).proved || ((s m).kind == "definition") :=
    funext fun m => by rw [(hpk m).1, (hpk m).2]
  unfold pass2Node
  rw [hsi, hf]

/-- Well-formedness of the heap with respect to an iteration sequence: no
node visited by the loop has a proof node that itself has a proof node
(proof environments do not carry `proved_by`). -/
def NoProofOfProof (s : Store) (order : List Nat) : Prop :=
  ∀ j ∈ order,
    Option.all (fun p => (s p).proved_by == none) (s j).proved_by = true

/-- The first loop computes each visited node's value from the authored
heap. -/
theorem pass1_at (d : String) (s : Store) (order : List Nat) (i : Nat)
    (hnd : order.Nodup) (hi : i ∈ order) (hpp : NoProofOfProof s order) :
    pass1 d s order i = pass1Node d s i := by
  obtain ⟨l1, l2, rfl⟩ := List.append_of_mem hi
  obtain ⟨h1, h2⟩ := nodup_split hnd
  rw [pass1_split d s l1 i l2 h2]
  apply pass1Node_congr
  · exact pass1_not_mem d s h1
  · exact fun u => pass1_leanok d l1 s u
  · intro p hp
    have hpnone : (s p).proved_by = none := by
      have hall := hpp i hi
      rw [hp] at hall
      simpa using hall
    exact pass1_uses_of_no_proof d l1 s p hpnone

/-- The second loop computes each visited node's `fully_proved` from the
heap left by the first loop. -/
theorem pass2_at (g : Graph) (s : Store) (order : List Nat) (i : Nat)
    (hnd : order.Nodup) (hi : i ∈ order) :
    pass2 g s order i = pass2Node g s i := by
  obtain ⟨l1, l2, rfl⟩ := List.append_of_mem hi
  obtain ⟨h1, h2⟩ := nodup_split hnd
  rw [pass2_split g s l1 i l2 h2]
  apply pass2Node_congr
  · exact pass2_not_mem g s h1
  · exact fun m => ⟨pass2_proved g l1 s m, pass2_kind g l1 s m⟩

theorem eraseDerived_eraseFP (n : Node) :
    eraseDerived (eraseFP n) = eraseDerived n := rfl

theorem pass1Node_can_state (d : String) (s : Store) (i : Nat) :
    (pass1Node d s i).can_state
      = (((getUses (s i)).all fun u => (s u).leanok) && !(s i).notready) := by
  unfold pass1Node
  cases hp : (s i).proved_by <;> simp [hp]

theorem pass1Node_of_proof (d : String) (s : Store) (i p : Nat)
    (hp : (s i).proved_by = some p) :
    (pass1Node d s i).can_prove
        = ((getUses (s i) ++ getUses (s p)).all fun u => (s u).leanok)
    ∧ (pass1Node d s i).proved = (s p).leanok
    ∧ (pass1Node d s i).uses
        = (s i).uses.map fun _ => getUses (s i) ++ getUses (s p) := by
  unfold pass1Node
  simp [hp]

theorem pass1Node_no_proof (d : String) (s : Store) (i : Nat)
    (hp : (s i).proved_by = none) :
    (pass1Node d s i).can_prove = false
    ∧ (pass1Node d s i).proved = false
    ∧ (pass1Node d s i).uses = (s i).uses := by
  unfold pass1Node
  simp [hp]

/-- After both loops, the per-node statement/proof status equals the value
written by the first loop, and `fully_proved` is computed from the heap left
by the first loop. -/
theorem mld_eq_pass1Node (d : String) (g : Graph) (s : Store) (i : Nat)
    (hnd : g.order.Nodup) (hi : i ∈ g.order) (hpp : NoProofOfProof s g.order) :
    (make_lean_data d g s i).can_state = (pass1Node d s i).can_state
    ∧ (make_lean_data d g s i).can_prove = (pass1Node d s i).can_prove
    ∧ (make_lean_data d g s i).proved = (pass1Node d s i).proved
    ∧ (make_lean_data d g s i).uses = (pass1Node d s i).uses := by
  unfold make_lean_data
  rw [pass2_can_state, pass2_can_prove, pass2_proved, pass2_uses,
    pass1_at d s g.order i hnd hi hpp]
  exact ⟨rfl, rfl, rfl, rfl⟩

/-- The `fully_proved` value of every visited node, expressed through the
final heap (legitimate because the second loop never writes `proved` or
`kind`: `fully_proved` reads the values the first loop finished computing for
all nodes). -/
theorem mld_fully_proved (d : String) (g : Graph) (s : Store) (i : Nat)
    (hnd : g.order.Nodup) (hi : i ∈ g.order) :
    (make_lean_data d g s i).fully_proved
      = ((g.ancestors i ++ [i]).all fun m =>
          (make_lean_data d g s m).proved
            || ((make_lean_data d g s m).kind == "definition")) := by
  unfold make_lean_data
  have hf : (fun m => (pass2 g (pass1 d s g.order) g.order m).proved
        || ((pass2 g (pass1 d s g.order) g.order m).kind == "definition"))
      = fun m => ((pass1 d s g.order) m).proved
        || (((pass1 d s g.order) m).kind == "definition") :=
    funext fun m => by rw [pass2_proved, pass2_kind]
  rw [hf, pass2_at g (pass1 d s g.order) g.order i hnd hi]
  unfold pass2Node
  simp

/-! ## Claim theorems -/

/-- C1: for every node `i` of a graph, the status propagator computes
`can_state(i) = (∀ u ∈ U(i), leanok u) ∧ ¬notready(i)`; when a proof node `p`
exists, `can_prove(i) = ∀ u ∈ U(i) ∪ U(p), leanok u` and
`proved(i) = leanok p`; without a proof node both are false. Missing flags
and prerequisite lists default to falsy/empty (`getUses`, `Bool` defaults),
never to an error. Hypotheses: the loop visits each node of the set once
(`Nodup`) and, per the data model, a proof node carries no `proved_by` of its
own. -/
theorem make_lean_data_per_node_status (d : String) (g : Graph) (s : Store)
    (i : Nat) (hnd : g.order.Nodup) (hi : i ∈ g.order)
    (hpp : NoProofOfProof s g.order) :
    ((make_lean_data d g s i).can_state
        = (((getUses (s i)).all fun u => (s u).leanok) && !(s i).notready))
    ∧ (∀ p, (s i).proved_by = some p →
        (make_lean_data d g s i).can_prove
            = ((getUses (s i) ++ getUses (s p)).all fun u => (s u).leanok)
        ∧ (make_lean_data d g s i).proved = (s p).leanok)
    ∧ ((s i).proved_by = none →
        (make_lean_data d g s i).can_prove = false
        ∧ (make_lean_data d g s i).proved = false) := by
  obtain ⟨hcs, hcp, hpr, -⟩ := mld_eq_pass1Node d g s i hnd hi hpp
  refine ⟨?_, ?_, ?_⟩
  · rw [hcs, pass1Node_can_state]
  · intro p hp
    obtain ⟨h1, h2, -⟩ := pass1Node_of_proof d s i p hp
    exact ⟨hcp.trans h1, hpr.trans h2⟩
  · intro hp
    obtain ⟨h1, h2, -⟩ := pass1Node_no_proof d s i hp
    exact ⟨hcp.trans h1, hpr.trans h2⟩

/-- Witness for C1 on `egStore1`: node 0 uses the formalized node 1 and is
proved by proof node 2, which is formalized, so after the pass node 0 is
can_state, can_prove and proved. -/
theorem make_lean_data_per_node_status_witness :
    (make_lean_data "d" egGraph1 egStore1 0).can_state = true
    ∧ (make_lean_data "d" egGraph1 egStore1 0).can_prove = true
    ∧ (make_lean_data "d" egGraph1 egStore1 0).proved = true := by
  have h := make_lean_data_per_node_status "d" egGraph1 egStore1 0
    (by decide) (by decide) (by unfold NoProofOfProof; decide)
  exact ⟨h.1.trans (by decide),
    ((h.2.1 2 rfl).1).trans (by decide),
    ((h.2.1 2 rfl).2).trans (by decide)⟩

/-- C2: for every node `i` of a graph,
`fully_proved(i) = ∀ m ∈ ancestors(i) ∪ {i}, proved(m) ∨ kind(m) = definition`,
where the `proved` and `kind` values are those of the final heap: the second
loop runs only after the first loop has computed `can_state`/`can_prove`/
`proved` for all nodes of the graph and never writes `proved`, so the values
read here are exactly the ones the first loop finished computing. -/
theorem make_lean_data_fully_proved_spec (d : String) (g : Graph) (s : Store)
    (i : Nat) (hnd : g.order.Nodup) (hi : i ∈ g.order) :
    ((make_lean_data d g s i).fully_proved
      = ((g.ancestors i ++ [i]).all fun m =>
          (make_lean_data d g s m).proved
            || ((make_lean_data d g s m).kind == "definition")))
    ∧ ((make_lean_data d g s i).fully_proved = true ↔
        ∀ m ∈ g.ancestors i ++ [i],
          (make_lean_data d g s m).proved = true
          ∨ (make_lean_data d g s m).kind = "definition") := by
  have h := mld_fully_proved d g s i hnd hi
  refine ⟨h, ?_⟩
  rw [h]
  simp only [List.all_eq_true, Bool.or_eq_true, beq_iff_eq]

/-- Witness for C2 on `egStore1`: node 0's ancestor set is `{1}`; node 1 is
neither proved nor a definition, so node 0 is not fully proved. -/
theorem make_lean_data_fully_proved_spec_witness :
    (make_lean_data "d" egGraph1 egStore1 0).fully_proved = false := by
  have h := (make_lean_data_fully_proved_spec "d" egGraph1 egStore1 0
    (by decide) (by decide)).1
  exact h.trans (by decide)

/-- C3 counterexample: the claim says a node's authored `uses` list survives
the pass unchanged, but on `egStore3` node 0's authored list `[1]` is
extended in place with proof node 2's `uses` list `[3]` by
`used.extend(proof.userdata.get('uses', []))`. -/
theorem uses_mutated_counterexample :
    (make_lean_data "d" egGraph3 egStore3 0).uses = some [1, 3]
    ∧ (egStore3 0).uses = some [1] := by decide

/-- C3 amended: the pass writes only derived data on every node — every
authored field other than `uses` is unchanged — but for a node with an
authored `uses` list and a proof node, the `uses` list after the pass is the
authored list extended with the proof node's `uses` list (the in-place
`list.extend`); a node without a proof node keeps its `uses` unchanged. -/
theorem make_lean_data_frame_and_uses_extension (d : String) (g : Graph)
    (s : Store) (i : Nat) (hnd : g.order.Nodup) (hi : i ∈ g.order)
    (hpp : NoProofOfProof s g.order) :
    (∀ j, eraseDerived (make_lean_data d g s j) = eraseDerived (s j))
    ∧ (∀ p l, (s i).proved_by = some p → (s i).uses = some l →
        (make_lean_data d g s i).uses = some (l ++ getUses (s p)))
    ∧ ((s i).proved_by = none →
        (make_lean_data d g s i).uses = (s i).uses) := by
  obtain ⟨-, -, -, hu⟩ := mld_eq_pass1Node d g s i hnd hi hpp
  refine ⟨?_, ?_, ?_⟩
  · intro j
    calc eraseDerived (make_lean_data d g s j)
        = eraseDerived (eraseFP (make_lean_data d g s j)) :=
          (eraseDerived_eraseFP _).symm
      _ = eraseDerived (eraseFP (pass1 d s g.order j)) := by
          unfold make_lean_data
          rw [pass2_eraseFP]
      _ = eraseDerived (pass1 d s g.order j) := eraseDerived_eraseFP _
      _ = eraseDerived (s j) := pass1_eraseDerived d g.order s j
  · intro p l hp hl
    obtain ⟨-, -, h3⟩ := pass1Node_of_proof d s i p hp
    rw [hu, h3, hl]
    simp [getUses, hl]
  · intro hp
    obtain ⟨-, -, h3⟩ := pass1Node_no_proof d s i hp
    exact hu.trans h3

/-- Witness for C3 (amended) on `egStore3`: node 0's `uses` after the pass is
the authored `[1]` extended with proof node 2's `[3]`. -/
theorem make_lean_data_frame_and_uses_extension_witness :
    (make_lean_data "d" egGraph3 egStore3 0).uses = some [1, 3] := by
  have h := (make_lean_data_frame_and_uses_extension "d" egGraph3 egStore3 0
    (by decide) (by decide) (by unfold NoProofOfProof; decide)).2.1 2 [1] rfl rfl
  exact h.trans (by decide)

/-- C4 counterexample: on `egStore4` the single node is a definition with no
proof node, so `fully_proved` is true while `proved` is false: the claimed
invariant `fully_proved(n) ⟹ proved(n)` fails on the code, which exempts
definition-kind nodes. -/
theorem fully_proved_not_imp_proved_counterexample :
    (make_lean_data "d" egGraph4 egStore4 0).fully_proved = true
    ∧ (make_lean_data "d" egGraph4 egStore4 0).proved = false := by decide

/-- C4 amended: after the pass, `fully_proved(n)` implies `proved(n)` or
`kind(n) = definition` (the node itself belongs to `ancestors(n) ∪ {n}`,
whose members need only be proved or definitions). -/
theorem fully_proved_imp_proved_or_definition (d : String) (g : Graph)
    (s : Store) (i : Nat) (hnd : g.order.Nodup) (hi : i ∈ g.order)
    (h : (make_lean_data d g s i).fully_proved = true) :
    (make_lean_data d g s i).proved = true
    ∨ (make_lean_data d g s i).kind = "definition" := by
  have hh := mld_fully_proved d g s i hnd hi
  rw [h] at hh
  have hm := (List.all_eq_true.mp hh.symm) i (by simp)
  simpa using hm

/-- Witness for C4 (amended) on `egStore4`: the fully proved definition node
satisfies the disjunction. -/
theorem fully_proved_imp_proved_or_definition_witness :
    (make_lean_data "d" egGraph4 egStore4 0).proved = true
    ∨ (make_lean_data "d" egGraph4 egStore4 0).kind = "definition" :=
  fully_proved_imp_proved_or_definition "d" egGraph4 egStore4 0
    (by decide) (by decide) (by decide)

/-- C5: the serialized structure's `node_count`, `edge_count` and
`proof_edge_count` equal the lengths of the serialized `nodes`, `edges` and
`proof_edges` lists, and — the Python sets being duplicate-free — the
cardinalities of the graph's original node, edge and proof-edge sets. -/
theorem serialize_graph_counts (captionOf : Nat → Option String) (s : Store)
    (g : Graph) (h1 : g.order.Nodup) (h2 : g.edges.Nodup)
    (h3 : g.proof_edges.Nodup) :
    ((serialize_graph captionOf s g).node_count
        = (serialize_graph captionOf s g).nodes.length
      ∧ (serialize_graph captionOf s g).node_count = g.order.toFinset.card)
    ∧ ((serialize_graph captionOf s g).edge_count
        = (serialize_graph captionOf s g).edges.length
      ∧ (serialize_graph captionOf s g).edge_count = g.edges.toFinset.card)
    ∧ ((serialize_graph captionOf s g).proof_edge_count
        = (serialize_graph captionOf s g).proof_edges.length
      ∧ (serialize_graph captionOf s g).proof_edge_count
          = g.proof_edges.toFinset.card) := by
  refine ⟨⟨rfl, ?_⟩, ⟨rfl, ?_⟩, ⟨rfl, ?_⟩⟩
  · rw [List.toFinset_card_of_nodup h1]
    simp [serialize_graph]
  · rw [List.toFinset_card_of_nodup h2]
    simp [serialize_graph]
  · rw [List.toFinset_card_of_nodup h3]
    simp [serialize_graph]

/-- Witness for C5 on `egGraph1`: three nodes, one edge, one proof edge. -/
theorem serialize_graph_counts_witness :
    (serialize_graph (fun _ => none) egStore1 egGraph1).node_count = 3
    ∧ (serialize_graph (fun _ => none) egStore1 egGraph1).edge_count = 1
    ∧ (serialize_graph (fun _ => none) egStore1 egGraph1).proof_edge_count
        = 1 := by
  have h := serialize_graph_counts (fun _ => none) egStore1 egGraph1
    (by decide) (by decide) (by decide)
  exact ⟨h.1.2.trans (by decide), h.2.1.2.trans (by decide),
    h.2.2.2.trans (by decide)⟩

/-- C6: `subgraph` returns `None` exactly when the target node is absent;
otherwise it returns the induced subgraph on `ancestors(node) ∪ {node}`,
whose edge and proof-edge sets are exactly the pairs of the original sets
with both endpoints inside; and `make_subgraph_html` skips HTML generation
whenever the extracted subgraph contains only the node itself. -/
theorem subgraph_spec (g : DepGraph) (n : Nat) :
    (n ∉ g.nodes → g.subgraph n = none)
    ∧ (n ∈ g.nodes → (g.subgraph n).isSome = true)
    ∧ (∀ sub, g.subgraph n = some sub →
        sub.nodes = g.ancestors n ∪ {n}
        ∧ (∀ e, e ∈ sub.edges ↔
            e ∈ g.edges ∧ e.1 ∈ sub.nodes ∧ e.2 ∈ sub.nodes)
        ∧ (∀ e, e ∈ sub.proof_edges ↔
            e ∈ g.proof_edges ∧ e.1 ∈ sub.nodes ∧ e.2 ∈ sub.nodes))
    ∧ (n ∈ g.nodes → g.ancestors n ∪ {n} = {n} →
        generates_subgraph_html g n = false) := by
  refine ⟨?_, ?_, ?_, ?_⟩
  · intro h
    simp [DepGraph.subgraph, h]
  · intro h
    simp [DepGraph.subgraph, h]
  · intro sub hsub
    by_cases h : n ∈ g.nodes
    · simp only [DepGraph.subgraph, if_pos h, Option.some.injEq] at hsub
      subst hsub
      refine ⟨rfl, ?_, ?_⟩ <;> intro e <;>
        simp [Finset.mem_filter, and_comm]
    · simp [DepGraph.subgraph, h] at hsub
  · intro h hsingle
    simp only [generates_subgraph_html, DepGraph.subgraph, if_pos h, hsingle]
    simp

/-- Witness for C6 on `egDG`: node 9 is absent so extraction returns the
sentinel; node 5 has no ancestors so its subgraph is just itself and no HTML
file is generated for it. -/
theorem subgraph_spec_witness :
    Blueprint.DepGraph.subgraph egDG 9 = none
    ∧ generates_subgraph_html egDG 5 = false :=
  ⟨(subgraph_spec egDG 9).1 (by decide),
    (subgraph_spec egDG 5).2.2.2 (by decide) (by decide)⟩

/-- C7: the registered callbacks (`export_json_callback` and
`make_subgraph_html`) wrap their bodies in a catch-all `try/except`, so for
every input — including a failing file write — they return normally
(`Except.ok`); on a write failure the export callback produces no artifact
and logs a warning instead. (`export_to_json` itself re-raises after logging;
the catch-all lives in the externally invoked callback.) -/
theorem callbacks_no_exception (doc : Doc) (write : ExportData → IOOutcome)
    (env : SubgraphEnv) (nodes_of : DepGraph → List Nat) :
    (export_json_callback doc write).isOk = true
    ∧ (make_subgraph_html_cb env nodes_of).isOk = true
    ∧ (∀ e, write (build_export_data doc) = .err e →
        export_json_callback doc write = .ok
          { produced := false
            warning := some ("Failed to export blueprint data to JSON: "
              ++ ("Error exporting blueprint data to JSON: " ++ e)) }) := by
  refine ⟨?_, ?_, ?_⟩
  · unfold export_json_callback export_to_json
    cases hw : write (build_export_data doc) <;> simp [hw, Except.isOk, Except.toBool]
  · unfold make_subgraph_html_cb
    cases hb : make_subgraph_html_body env nodes_of <;>
      simp [hb, Except.isOk, Except.toBool]
  · intro e he
    simp [export_json_callback, export_to_json, he]

/-- Witness for C7: a failing disk write makes the export callback return
normally with a warning and no artifact. -/
theorem callbacks_no_exception_witness :
    (export_json_callback egDoc (fun _ => IOOutcome.err "disk full")).isOk
      = true
    ∧ export_json_callback egDoc (fun _ => IOOutcome.err "disk full")
        = .ok { produced := false
                warning := some ("Failed to export blueprint data to JSON: "
                  ++ ("Error exporting blueprint data to JSON: "
                    ++ "disk full")) } := by
  have h := callbacks_no_exception egDoc (fun _ => IOOutcome.err "disk full")
    { hasDepGraph := false, graphs := [], templateExists := false,
      render := fun _ => IOOutcome.ok } (fun _ => [])
  exact ⟨h.1, h.2.2 "disk full" rfl⟩

/-- C8: the border colorizer returns the first color in priority order
mathlibok, leanok, can_state, notready, and the empty string when none
holds; with the plugin's color table the fill colorizer never assigns the
fully_proved fill color to a definition-kind node; and a node with only
`notready` set gets the not-ready border color and an empty fill. -/
theorem colorizer_spec (colors : Colors) (n : Node) :
    (n.mathlibok = true → colorizer colors n = colors.mathlib.1)
    ∧ (n.mathlibok = false → n.leanok = true →
        colorizer colors n = colors.stated.1)
    ∧ (n.mathlibok = false → n.leanok = false → n.can_state = true →
        colorizer colors n = colors.can_state.1)
    ∧ (n.mathlibok = false → n.leanok = false → n.can_state = false →
        n.notready = true → colorizer colors n = colors.not_ready.1)
    ∧ (n.mathlibok = false → n.leanok = false → n.can_state = false →
        n.notready = false → colorizer colors n = "")
    ∧ (n.kind = "definition" →
        fillcolorizer defaultColors n ≠ defaultColors.fully_proved.1)
    ∧ (n.notready = true → n.mathlibok = false → n.leanok = false →
        n.can_state = false → n.can_prove = false → n.proved = false →
        n.fully_proved = false →
        colorizer colors n = colors.not_ready.1
        ∧ fillcolorizer defaultColors n = "") := by
  refine ⟨?_, ?_, ?_, ?_, ?_, ?_, ?_⟩
  · intro h1
    simp [colorizer, h1]
  · intro h1 h2
    simp [colorizer, h1, h2]
  · intro h1 h2 h3
    simp [colorizer, h1, h2, h3]
  · intro h1 h2 h3 h4
    simp [colorizer, h1, h2, h3, h4]
  · intro h1 h2 h3 h4
    simp [colorizer, h1, h2, h3, h4]
  · intro hk
    cases hl : n.leanok <;> cases hcs : n.can_state <;>
      cases hp : n.proved <;> cases hcp : n.can_prove <;>
      simp [fillcolorizer, hk, hl, hcs, hp, hcp, defaultColors]
  · intro h1 h2 h3 h4 h5 h6 h7
    constructor
    · simp [colorizer, h1, h2, h3, h4]
    · cases hk : n.kind == "definition" <;>
        simp [fillcolorizer, h2, h3, h4, h5, h6, h7, hk]

/-- Witness for C8 on the notready-only node: orange border, empty fill. -/
theorem colorizer_spec_witness :
    colorizer defaultColors egNodeNotready = defaultColors.not_ready.1
    ∧ fillcolorizer defaultColors egNodeNotready = "" :=
  (colorizer_spec defaultColors egNodeNotready).2.2.2.2.2.2
    rfl rfl rfl rfl rfl rfl rfl

/-- C9: with no dependency graph in the document metadata the exported
structure has exactly the top-level keys `project_metadata` and `lean_decls`;
with one, a `dep_graph` key holding colors, legend and graphs is added. -/
theorem export_keys_spec (doc : Doc) :
    (doc.dep_graph = none →
      export_keys (build_export_data doc)
        = ["project_metadata", "lean_decls"]
      ∧ (build_export_data doc).dep_graph = none)
    ∧ (∀ dg, doc.dep_graph = some dg →
        export_keys (build_export_data doc)
          = ["project_metadata", "lean_decls", "dep_graph"]
        ∧ (build_export_data doc).dep_graph = some
            { colors := dg.colors.map fun kv =>
                (kv.1, { color := kv.2.1, description := kv.2.2 })
              legend := dg.legend.map fun it =>
                { label := it.1, description := it.2 }
              graphs := dg.graphs.map fun ng =>
                (ng.1, serialize_graph doc.captionOf doc.store ng.2) }) := by
  constructor
  · intro h
    constructor <;> simp [export_keys, build_export_data, h]
  · intro dg h
    constructor <;> simp [export_keys, build_export_data, h]

/-- Witness for C9 on `egDoc`, which has no dependency graph: only the two
metadata keys are exported. -/
theorem export_keys_spec_witness :
    export_keys (build_export_data egDoc)
      = ["project_metadata", "lean_decls"] :=
  ((export_keys_spec egDoc).1 rfl).1

/-- C10: every markup command preserves the invariant that `mathlibok`
implies `leanok` (in particular `\mathlibok` sets both), so any sequence of
markup-command applications preserves it; and the status-propagation pass
never writes either flag. -/
theorem mathlibok_imp_leanok_invariant (n : Node) (cmds : List MarkupCmd)
    (h : n.mathlibok = true → n.leanok = true) :
    ((cmds.foldl applyCmd n).mathlibok = true →
      (cmds.foldl applyCmd n).leanok = true)
    ∧ (∀ d g s j, (make_lean_data d g s j).mathlibok = (s j).mathlibok
        ∧ (make_lean_data d g s j).leanok = (s j).leanok) := by
  constructor
  · induction cmds generalizing n with
    | nil => exact h
    | cons c t ih =>
        refine ih (applyCmd n c) ?_
        cases c <;> simp [applyCmd] <;> exact fun hm => h hm
  · intro d g s j
    constructor
    · have h1 := congrArg Node.mathlibok (pass1_eraseDerived d g.order s j)
      have h2 := congrArg Node.mathlibok
        (pass2_eraseFP g g.order (pass1 d s g.order) j)
      simp only [eraseDerived, eraseFP] at h1 h2
      exact h2.trans h1
    · have h1 := congrArg Node.leanok (pass1_eraseDerived d g.order s j)
      have h2 := congrArg Node.leanok
        (pass2_eraseFP g g.order (pass1 d s g.order) j)
      simp only [eraseDerived, eraseFP] at h1 h2
      exact h2.trans h1

/-- Witness for C10: applying `\mathlibok` to a fresh node leaves a node
satisfying the invariant, whose `leanok` flag is indeed set. -/
theorem mathlibok_imp_leanok_invariant_witness :
    (List.foldl applyCmd {} [MarkupCmd.mathlibokCmd]).leanok = true :=
  (mathlibok_imp_leanok_invariant {} [MarkupCmd.mathlibokCmd]
    (fun h => absurd h (by decide))).1 (by decide)

end Blueprint
